import Mathlib

/-!
Verification of the Pocket POD MIDI editor protocol core
(`src/PocketPodEditor.jsx` and its protocol tests).

The JavaScript source is shallowly embedded: byte sequences become
`List Nat`, JavaScript strings become lists of UTF-16 character codes
(`List Nat`), JavaScript `undefined`/`null` results become `Option`,
and the patch-dump parser returns `Option PatchRecord` (with `none`
standing for the `null` failure result).  JavaScript array indexing
`a[i]` (which yields `undefined` out of range) is modelled with `l[i]?`.
-/

set_option maxRecDepth 40000

namespace PocketPod

/-- One entry of `MIDI_CC_MAP`: a controllable parameter descriptor with
its state key, controller number, display name and value range. -/
structure CCDef where
  key : String
  cc : Nat
  displayName : String
  min : Nat
  max : Nat
deriving DecidableEq, Repr

/-- The static CC registry `MIDI_CC_MAP` from the source, in source
(insertion) order. -/
def MIDI_CC_MAP : List CCDef := [
  ⟨"ampModel", 12, "Amp Model", 0, 31⟩,
  ⟨"drive", 13, "Drive", 0, 127⟩,
  ⟨"bass", 14, "Bass", 0, 127⟩,
  ⟨"mid", 15, "Mid", 0, 127⟩,
  ⟨"treble", 16, "Treble", 0, 127⟩,
  ⟨"chanVol", 17, "Chan Vol", 0, 127⟩,
  ⟨"drive2", 20, "Drive 2", 0, 127⟩,
  ⟨"presence", 21, "Presence", 0, 127⟩,
  ⟨"reverb_level", 18, "Reverb Level", 0, 127⟩,
  ⟨"reverb_type", 37, "Reverb Type", 0, 1⟩,
  ⟨"reverb_decay", 38, "Reverb Decay", 0, 127⟩,
  ⟨"reverb_tone", 39, "Reverb Tone", 0, 127⟩,
  ⟨"reverb_diffusion", 40, "Reverb Diffusion", 0, 127⟩,
  ⟨"reverb_density", 41, "Reverb Density", 0, 127⟩,
  ⟨"effect", 19, "Effect Type", 0, 15⟩,
  ⟨"effect_tweak", 1, "Effect Tweak", 0, 127⟩,
  ⟨"effect_speed", 51, "Effect Speed", 0, 127⟩,
  ⟨"effect_depth", 52, "Effect Depth", 0, 127⟩,
  ⟨"effect_feedback", 53, "Effect Feedback", 0, 127⟩,
  ⟨"effect_predelay", 54, "Effect Pre-Delay", 0, 127⟩,
  ⟨"noise_gate", 23, "Noise Gate Thresh", 0, 127⟩,
  ⟨"noise_gate_decay", 24, "Noise Gate Decay", 0, 127⟩,
  ⟨"delay_time", 30, "Delay Time", 0, 127⟩,
  ⟨"delay_time_fine", 62, "Delay Fine", 0, 127⟩,
  ⟨"delay_feedback", 32, "Delay Feedback", 0, 127⟩,
  ⟨"delay_level", 34, "Delay Level", 0, 127⟩,
  ⟨"cabModel", 71, "Cab Model", 0, 15⟩,
  ⟨"air", 72, "Air", 0, 127⟩,
  ⟨"wah_position", 4, "Wah Position", 0, 127⟩,
  ⟨"wah_bottom", 44, "Wah Bot Freq", 0, 127⟩,
  ⟨"wah_top", 45, "Wah Top Freq", 0, 127⟩,
  ⟨"vol_level", 7, "Volume Level", 0, 127⟩,
  ⟨"vol_min", 46, "Volume Min", 0, 127⟩,
  ⟨"vol_position", 47, "Volume Position", 0, 127⟩,
  ⟨"dist_enable", 25, "Dist Enable", 0, 1⟩,
  ⟨"drive_enable", 26, "Drive Enable", 0, 1⟩,
  ⟨"eq_enable", 27, "EQ Enable", 0, 1⟩,
  ⟨"delay_enable", 28, "Delay Enable", 0, 1⟩,
  ⟨"reverb_enable", 36, "Reverb Enable", 0, 1⟩,
  ⟨"noise_gate_enable", 22, "Noise Gate Enable", 0, 1⟩,
  ⟨"mod_fx_enable", 50, "Mod FX Enable", 0, 1⟩,
  ⟨"bright_switch", 73, "Bright Switch", 0, 1⟩]

/-- The table `PATCH_PARAM_MAP` from the source: decoded-payload byte offset to
parameter state key, in ascending offset order (the iteration order of
the JavaScript object, whose keys are integer-like). -/
def PATCH_PARAM_MAP : List (Nat × String) := [
  (0, "dist_enable"),
  (1, "drive_enable"),
  (2, "eq_enable"),
  (3, "delay_enable"),
  (4, "mod_fx_enable"),
  (5, "reverb_enable"),
  (6, "noise_gate_enable"),
  (7, "bright_switch"),
  (8, "ampModel"),
  (9, "drive"),
  (10, "drive2"),
  (11, "bass"),
  (12, "mid"),
  (13, "treble"),
  (14, "presence"),
  (15, "chanVol"),
  (16, "noise_gate"),
  (17, "noise_gate_decay"),
  (18, "wah_position"),
  (19, "wah_bottom"),
  (20, "wah_top"),
  (22, "vol_level"),
  (23, "vol_min"),
  (24, "vol_position"),
  (26, "delay_time"),
  (27, "delay_time_fine"),
  (34, "delay_feedback"),
  (36, "delay_level"),
  (38, "reverb_type"),
  (39, "reverb_decay"),
  (40, "reverb_tone"),
  (41, "reverb_diffusion"),
  (42, "reverb_density"),
  (43, "reverb_level"),
  (44, "cabModel"),
  (45, "air"),
  (46, "effect"),
  (47, "effect_tweak"),
  (48, "effect_speed"),
  (50, "effect_depth"),
  (52, "effect_feedback"),
  (53, "effect_predelay")]

/-- The function `decodeNibbles(data)`: consume consecutive pairs `(hi, lo)` and emit
`(hi << 4) | lo`; a trailing unpaired element is dropped.  This is the
structural form of the source loop
`for (let i = 0; i < data.length - 1; i += 2) bytes.push((data[i] << 4) | data[i + 1])`. -/
def decodeNibbles : List Nat → List Nat
  | hi :: lo :: rest => ((hi <<< 4) ||| lo) :: decodeNibbles rest
  | _ => []

/-- The character codes below 0x10000 that JavaScript
`String.prototype.trim` removes (ECMAScript WhiteSpace and
LineTerminator code points). -/
def isJsWhitespace (c : Nat) : Bool :=
  c == 9 || c == 10 || c == 11 || c == 12 || c == 13 || c == 32 || c == 160 ||
  c == 0x1680 || (0x2000 ≤ c && c ≤ 0x200A) || c == 0x2028 || c == 0x2029 ||
  c == 0x202F || c == 0x205F || c == 0x3000 || c == 0xFEFF

/-- JavaScript `s.trim()` on a string modelled as its list of character
codes: remove leading and trailing whitespace. -/
def jsTrim (s : List Nat) : List Nat :=
  ((s.dropWhile isJsWhitespace).reverse.dropWhile isJsWhitespace).reverse

/-- The function `decodePatchName(nibbles)`: decode the nibbles to bytes, read each
byte as a character code (`String.fromCharCode` / `join` collapse to the
identity in the codes-as-list model) and apply JavaScript `trim`. -/
def decodePatchName (nibbles : List Nat) : List Nat :=
  jsTrim (decodeNibbles nibbles)

/-- The result record of `parsePatchDump`: `name` as character codes,
`params` as the (key, value) pairs built from `PATCH_PARAM_MAP` (the
value is `Option` because JavaScript indexing can yield `undefined`),
`presetNumber` with `none` for `null`, and the `isEditBuffer` flag. -/
structure PatchRecord where
  name : List Nat
  params : List (String × Option Nat)
  presetNumber : Option Nat
  isEditBuffer : Bool
deriving DecidableEq, Repr

/-- The function `parsePatchDump(data)`: parse a full SysEx patch dump.
Header `F0 00 01 0C 01 01 <type> ...`; `data[6] === 0x01` selects the
edit-buffer layout (payload from index 8), otherwise the stored-preset
layout (`data[7]` = program number, payload from index 9).  The 142
nibblized payload bytes are `data.slice(nibbleStart, nibbleStart+142)`;
if fewer than 142 remain the parse fails with `none` (the JS `null`). -/
def parsePatchDump (data : List Nat) : Option PatchRecord :=
  let isEditBuffer := data[6]? == some 0x01
  let presetNumber : Option Nat := if isEditBuffer then none else data[7]?
  let nibbleStart := if isEditBuffer then 8 else 9
  let nibblizedPayload := (data.drop nibbleStart).take 142
  if nibblizedPayload.length < 142 then
    none
  else
    let decoded := decodeNibbles nibblizedPayload
    let nameBytes := (decoded.drop 55).take 16
    let name := jsTrim nameBytes
    let params := PATCH_PARAM_MAP.map fun p => (p.2, decoded[p.1]?)
    some { name := name, params := params, presetNumber := presetNumber,
           isEditBuffer := isEditBuffer }

/-- The nibble encoder used by `buildPatchDump` in
`__tests__/protocol.test.js`: each byte becomes the pair
`(byte >> 4) & 0x0F`, `byte & 0x0F`. -/
def encodeNibbles (bytes : List Nat) : List Nat :=
  bytes.flatMap fun b => [(b >>> 4) &&& 0x0F, b &&& 0x0F]

/-- The helper `buildPatchDump` from `__tests__/protocol.test.js`: header
`F0 00 01 0C 01 01`, then `[0x01, 0x00]` (edit buffer) or
`[0x00, presetNumber, 0x00]` (stored preset), then the nibblized
71 bytes (55 parameter bytes and the 16-character name padded with
spaces), then `F7`. -/
def buildPatchDump (isEditBuffer : Bool) (presetNumber : Nat)
    (paramBytes : List Nat) (nameChars : List Nat) : List Nat :=
  let header := [0xF0, 0x00, 0x01, 0x0C, 0x01, 0x01]
  let metaBytes := if isEditBuffer then [0x01, 0x00] else [0x00, presetNumber, 0x00]
  let nameBytes := (nameChars ++ List.replicate (16 - nameChars.length) 0x20).take 16
  let full71 := paramBytes ++ nameBytes
  header ++ metaBytes ++ encodeNibbles full71 ++ [0xF7]

/-- The Control-Change branch of `handleMidiMessage`: scan `MIDI_CC_MAP`
in order for the first descriptor whose `cc` equals the incoming
controller number (the loop `break`s on the first match); a toggle
descriptor (`max === 1`) stores `val >= 64 ? 1 : 0`, any other
descriptor stores the raw value.  `none` means no descriptor matched
and the message is ignored. -/
def interpretCC (cc val : Nat) : Option (String × Nat) :=
  match MIDI_CC_MAP.find? (fun d => d.cc == cc) with
  | some d => some (d.key, if d.max == 1 then (if 64 ≤ val then 1 else 0) else val)
  | none => none

/-- Modelled from the spec: the eight effect categories of §4.5.  The
source file defining `EFFECT_CATEGORIES`/`getEffectCC` is absent from
the repository snapshot (only its tests remain), so the resolver is
reconstructed from the specification. -/
inductive EffectCategory where
  | chorus | flanger | rotary | tremolo | compressor | swell | bypass | delay_only
deriving DecidableEq, Repr

/-- Modelled from the spec: the fixed 16-entry lookup from effect-type
index to category, §4.5: indices {0,4,8,12} chorus, {1,3,13,15} flanger,
{2} rotary, {5,9} tremolo, {7,11} compressor, {14} swell, {10} bypass,
{6} delay_only. -/
def EFFECT_CATEGORIES : List EffectCategory := [
  .chorus, .flanger, .rotary, .flanger,
  .chorus, .tremolo, .delay_only, .compressor,
  .chorus, .tremolo, .bypass, .compressor,
  .chorus, .flanger, .swell, .flanger]

/-- Modelled from the spec: the per-category table of logical
sub-parameter to physical controller number, §4.5.  The spec leaves the
flanger row open ("effect sub-parameter CC numbers for categories not
covered by the visible test assertions (e.g., flanger ...)"); the
generic CCs 51-54 are used for it here, following the spec's
"51 (generic)" note for the chorus row.  None of the claims depend on
the flanger row. -/
def EFFECT_CC_TABLE : EffectCategory → List (String × Nat)
  | .chorus => [("effect_speed", 51), ("effect_depth", 52),
                ("effect_feedback", 53), ("effect_predelay", 54)]
  | .flanger => [("effect_speed", 51), ("effect_depth", 52),
                 ("effect_feedback", 53), ("effect_predelay", 54)]
  | .rotary => [("effect_speed", 55), ("effect_depth", 56)]
  | .tremolo => [("effect_speed", 58), ("effect_depth", 59)]
  | .compressor => [("effect_speed", 42)]
  | .swell => [("effect_speed", 49)]
  | .bypass => []
  | .delay_only => []

/-- Modelled from the spec:
`getEffectCC(logicalParam, effectTypeIndex) → controllerNumber or null`:
resolve the category from the index via the fixed 16-entry lookup, then
look the logical sub-parameter up in that category's table; `none` when
the category does not define it (bypass and delay_only define none). -/
def getEffectCC (logicalParam : String) (effectTypeIndex : Nat) : Option Nat :=
  match EFFECT_CATEGORIES[effectTypeIndex]? with
  | some cat => (EFFECT_CC_TABLE cat).lookup logicalParam
  | none => none

/-- The controller numbers of the static registry are pairwise distinct
(shared by several proofs below). -/
lemma midi_cc_map_nodup_aux : (MIDI_CC_MAP.map fun d => d.cc).Nodup := by
  decide

/-- C9: no two entries of the static CC registry share a controller
number: the list of `cc` fields of `MIDI_CC_MAP` has no duplicate. -/
theorem MIDI_CC_MAP_cc_nodup : (MIDI_CC_MAP.map fun d => d.cc).Nodup :=
  midi_cc_map_nodup_aux

lemma decodeNibbles_length : ∀ data : List Nat,
    (decodeNibbles data).length = data.length / 2
  | [] => rfl
  | [_] => by simp [decodeNibbles]
  | _ :: _ :: rest => by
    have ih := decodeNibbles_length rest
    simp only [decodeNibbles, List.length_cons, ih]
    omega

lemma decodeNibbles_getElem? : ∀ (data : List Nat) (i : Nat),
    (decodeNibbles data)[i]? =
      (data[2 * i]?).bind fun hi => (data[2 * i + 1]?).map fun lo => (hi <<< 4) ||| lo
  | [], i => by simp [decodeNibbles]
  | [a], i => by cases i <;> simp [decodeNibbles]
  | a :: b :: rest, 0 => by simp [decodeNibbles]
  | a :: b :: rest, i + 1 => by
    have h2 : 2 * (i + 1) = 2 * i + 1 + 1 := by omega
    have h3 : 2 * (i + 1) + 1 = 2 * i + 1 + 1 + 1 := by omega
    simp only [decodeNibbles, h2, h3, List.getElem?_cons_succ]
    exact decodeNibbles_getElem? rest i

/-- C4: `decodeNibbles` consumes its input as consecutive pairs: the
empty input gives the empty output, the output length is always
`⌊input length / 2⌋` (so a trailing unpaired nibble is dropped without
error), and the output byte at position `i` is `(hi << 4) | lo` for the
input pair at positions `2i`, `2i+1` (the `bind`/`map` form is `none`
exactly when no full pair exists at those positions). -/
theorem decodeNibbles_pairs_spec :
    decodeNibbles [] = [] ∧
    (∀ data : List Nat, (decodeNibbles data).length = data.length / 2) ∧
    (∀ (data : List Nat) (i : Nat),
      (decodeNibbles data)[i]? =
        (data[2 * i]?).bind fun hi =>
          (data[2 * i + 1]?).map fun lo => (hi <<< 4) ||| lo) :=
  ⟨rfl, decodeNibbles_length, decodeNibbles_getElem?⟩

/-- C7: `getEffectCC` resolves the category through the fixed 16-entry
lookup and returns the category's controller number for the logical
sub-parameter, `none` when the category does not define it; the
spec's examples hold (rotary speed 55, compressor has no depth, bypass
has nothing), as do the further values asserted by the repository's
tests, and bypass (index 10) and delay_only (index 6) define no
sub-parameter at all. -/
theorem getEffectCC_spec :
    getEffectCC "effect_speed" 2 = some 55 ∧
    getEffectCC "effect_depth" 7 = none ∧
    getEffectCC "effect_speed" 10 = none ∧
    getEffectCC "effect_speed" 0 = some 51 ∧
    getEffectCC "effect_depth" 2 = some 56 ∧
    getEffectCC "effect_speed" 5 = some 58 ∧
    getEffectCC "effect_depth" 5 = some 59 ∧
    getEffectCC "effect_speed" 7 = some 42 ∧
    getEffectCC "effect_speed" 14 = some 49 ∧
    (∀ p, getEffectCC p 10 = none) ∧
    (∀ p, getEffectCC p 6 = none) :=
  ⟨rfl, rfl, rfl, rfl, rfl, rfl, rfl, rfl, rfl, fun _ => rfl, fun _ => rfl⟩

/-- C6 counterexample: effect-type index 2 is the rotary category and
its speed controller is 55 (per the spec-modelled resolver), yet the
Control-Change branch of `handleMidiMessage` ignores an incoming CC 55
entirely — it is not interpreted as `effect_speed` (nor anything else),
because the handler only scans the static `MIDI_CC_MAP`. -/
theorem interpretCC_cc55_ignored :
    EFFECT_CATEGORIES[2]? = some EffectCategory.rotary ∧
    getEffectCC "effect_speed" 2 = some 55 ∧
    interpretCC 55 100 = none :=
  ⟨rfl, rfl, rfl⟩

/-- C6 (amended): the Control-Change branch of `handleMidiMessage`
performs no effect-category-dynamic resolution: the category-specific
controller numbers (42 compressor, 49 swell, 55/56 rotary, 58/59
tremolo) are ignored for every value, whatever the selected effect
category; only the static descriptors resolve (e.g. the generic CC 51
to `effect_speed`). -/
theorem interpretCC_no_dynamic_resolution :
    (∀ val, interpretCC 42 val = none) ∧
    (∀ val, interpretCC 49 val = none) ∧
    (∀ val, interpretCC 55 val = none) ∧
    (∀ val, interpretCC 56 val = none) ∧
    (∀ val, interpretCC 58 val = none) ∧
    (∀ val, interpretCC 59 val = none) ∧
    (∀ val, interpretCC 51 val = some ("effect_speed", val)) :=
  ⟨fun _ => rfl, fun _ => rfl, fun _ => rfl, fun _ => rfl, fun _ => rfl,
   fun _ => rfl, fun _ => rfl⟩

lemma find_cc_of_nodup (l : List CCDef) (hl : (l.map fun e => e.cc).Nodup)
    (d : CCDef) (hd : d ∈ l) : l.find? (fun e => e.cc == d.cc) = some d := by
  induction l with
  | nil => simp at hd
  | cons a t ih =>
    rw [List.map_cons, List.nodup_cons] at hl
    rcases List.mem_cons.mp hd with rfl | hdt
    · rw [List.find?_cons_of_pos _ (by simp)]
    · have hmem : d.cc ∈ t.map fun e => e.cc := List.mem_map_of_mem _ hdt
      have hne : a.cc ≠ d.cc := fun h => hl.1 (h ▸ hmem)
      rw [List.find?_cons_of_neg _ (by simpa using hne), ih hl.2 hdt]

/-- C5: for every descriptor of the static CC registry, an incoming
Control-Change message with its controller number resolves to that
descriptor's key; a toggle descriptor (`max = 1`) stores 1 when the
value is at least 64 and 0 below 64, and every other descriptor passes
the raw value through unchanged. -/
theorem interpretCC_matched_descriptor (d : CCDef) (hd : d ∈ MIDI_CC_MAP)
    (val : Nat) :
    interpretCC d.cc val =
      some (d.key, if d.max == 1 then (if 64 ≤ val then 1 else 0) else val) := by
  unfold interpretCC
  rw [find_cc_of_nodup MIDI_CC_MAP midi_cc_map_nodup_aux d hd]

/-- C5 witness: the toggle descriptor `dist_enable` (CC 25) maps 127 to
1 and 63 to 0, and the non-toggle `drive` (CC 13) passes 100 through. -/
theorem interpretCC_matched_descriptor_witness :
    (⟨"dist_enable", 25, "Dist Enable", 0, 1⟩ : CCDef) ∈ MIDI_CC_MAP ∧
    interpretCC 25 127 = some ("dist_enable", 1) ∧
    interpretCC 25 63 = some ("dist_enable", 0) ∧
    interpretCC 13 100 = some ("drive", 100) := by
  refine ⟨by decide, ?_, ?_, ?_⟩
  · simpa using
      interpretCC_matched_descriptor ⟨"dist_enable", 25, "Dist Enable", 0, 1⟩
        (by decide) 127
  · simpa using
      interpretCC_matched_descriptor ⟨"dist_enable", 25, "Dist Enable", 0, 1⟩
        (by decide) 63
  · simpa using
      interpretCC_matched_descriptor ⟨"drive", 13, "Drive", 0, 127⟩
        (by decide) 100

/-- C2: whenever fewer than 142 elements remain after the nibble-payload
start index (8 when byte 6 selects the edit-buffer layout, 9 otherwise),
`parsePatchDump` returns `none` — the `null` failure signal.  The
embedding is a total function, so no input can raise an exception. -/
theorem parsePatchDump_short_none (data : List Nat)
    (h : data.length < (if data[6]? == some 0x01 then 8 else 9) + 142) :
    parsePatchDump data = none := by
  cases hb : (data[6]? == some 0x01) with
  | false =>
    rw [hb] at h
    simp only [Bool.false_eq_true, if_false] at h
    simp only [parsePatchDump, hb, Bool.false_eq_true, if_false,
      List.length_take, List.length_drop]
    split
    · rfl
    · exfalso; omega
  | true =>
    rw [hb] at h
    simp only [if_true] at h
    simp only [parsePatchDump, hb, if_true,
      List.length_take, List.length_drop]
    split
    · rfl
    · exfalso; omega

/-- C2 witness: the truncated frame from the protocol tests
(`F0 00 01 0C 01 01 01 00 F7`, no nibble payload) parses to `none`. -/
theorem parsePatchDump_short_none_witness :
    ([0xF0, 0x00, 0x01, 0x0C, 0x01, 0x01, 0x01, 0x00, 0xF7] : List Nat).length <
      (if ([0xF0, 0x00, 0x01, 0x0C, 0x01, 0x01, 0x01, 0x00, 0xF7] : List Nat)[6]? ==
          some 0x01 then 8 else 9) + 142 ∧
    parsePatchDump [0xF0, 0x00, 0x01, 0x0C, 0x01, 0x01, 0x01, 0x00, 0xF7] = none :=
  ⟨by decide,
   parsePatchDump_short_none [0xF0, 0x00, 0x01, 0x0C, 0x01, 0x01, 0x01, 0x00, 0xF7]
     (by decide)⟩

/-- C10: `parsePatchDump` never inspects the frame header bytes 0-5:
its result depends only on the input from index 6 on; and every input
of at least 150 elements whose byte at index 6 is 0x01 parses to a
non-null record, whatever bytes 0-5 hold. -/
theorem parsePatchDump_ignores_header :
    (∀ d₁ d₂ : List Nat, d₁.drop 6 = d₂.drop 6 →
      parsePatchDump d₁ = parsePatchDump d₂) ∧
    (∀ data : List Nat, 150 ≤ data.length → data[6]? = some 0x01 →
      (parsePatchDump data).isSome = true) := by
  constructor
  · intro d₁ d₂ h
    have h6 : d₁[6]? = d₂[6]? := by
      have e := congrArg (fun l => l[0]?) h
      simp only [List.getElem?_drop] at e
      simpa using e
    have h7 : d₁[7]? = d₂[7]? := by
      have e := congrArg (fun l => l[1]?) h
      simp only [List.getElem?_drop] at e
      simpa using e
    have h8 : d₁.drop 8 = d₂.drop 8 := by
      simpa [List.drop_drop] using congrArg (List.drop 2) h
    have h9 : d₁.drop 9 = d₂.drop 9 := by
      simpa [List.drop_drop] using congrArg (List.drop 3) h
    simp only [parsePatchDump, h6, h7]
    cases hb : (d₂[6]? == some 0x01) <;>
      simp only [hb, Bool.false_eq_true, if_false, if_true, h8, h9]
  · intro data hlen h6
    have hb : (data[6]? == some 0x01) = true := by simp [h6]
    simp only [parsePatchDump, hb, if_true, List.length_take, List.length_drop]
    split
    · exfalso; omega
    · rfl

/-- A well-formed edit-buffer frame used as concrete input below. -/
def c10frameA : List Nat :=
  [0xF0, 0x00, 0x01, 0x0C, 0x01, 0x01, 0x01, 0x00] ++ List.replicate 142 0 ++ [0xF7]

/-- The same frame with garbage in header bytes 0-5. -/
def c10frameB : List Nat :=
  [9, 9, 9, 9, 9, 9, 0x01, 0x00] ++ List.replicate 142 0 ++ [0xF7]

set_option maxRecDepth 10000 in
/-- C10 witness: the garbage-header frame parses identically to the
well-formed one, and the well-formed 151-element frame parses to a
non-null record. -/
theorem parsePatchDump_ignores_header_witness :
    c10frameA.drop 6 = c10frameB.drop 6 ∧
    parsePatchDump c10frameA = parsePatchDump c10frameB ∧
    150 ≤ c10frameA.length ∧ c10frameA[6]? = some 0x01 ∧
    (parsePatchDump c10frameA).isSome = true :=
  ⟨by decide,
   parsePatchDump_ignores_header.1 c10frameA c10frameB (by decide),
   by decide, by decide,
   parsePatchDump_ignores_header.2 c10frameA (by decide) (by decide)⟩

lemma byte_roundtrip : ∀ b < 256, ((b >>> 4) &&& 0x0F) <<< 4 ||| (b &&& 0x0F) = b := by
  decide

lemma encodeNibbles_length (bytes : List Nat) :
    (encodeNibbles bytes).length = 2 * bytes.length := by
  induction bytes with
  | nil => rfl
  | cons b rest ih =>
    simp only [encodeNibbles, List.flatMap_cons, List.length_append,
      List.length_cons, List.length_nil] at ih ⊢
    omega

lemma decodeNibbles_encodeNibbles (bytes : List Nat) (h : ∀ b ∈ bytes, b < 256) :
    decodeNibbles (encodeNibbles bytes) = bytes := by
  induction bytes with
  | nil => rfl
  | cons b rest ih =>
    have hb : b < 256 := h b (List.mem_cons_self b rest)
    have hrest : ∀ x ∈ rest, x < 256 := fun x hx => h x (List.mem_cons_of_mem b hx)
    have hstep : encodeNibbles (b :: rest) =
        ((b >>> 4) &&& 0x0F) :: ((b &&& 0x0F) :: encodeNibbles rest) := by
      simp [encodeNibbles]
    rw [hstep, decodeNibbles, byte_roundtrip b hb, ih hrest]

lemma patch_param_map_offsets_lt : ∀ p ∈ PATCH_PARAM_MAP, p.1 < 55 := by
  decide

lemma name_pad_eq (nameChars : List Nat) (hname : nameChars.length = 16) :
    (nameChars ++ List.replicate (16 - nameChars.length) 0x20).take 16 = nameChars := by
  rw [hname]
  simp
  omega

lemma parse_build_decoded (paramBytes nameChars : List Nat)
    (hnb : ∀ c ∈ nameChars, c < 256) (hpb : ∀ b ∈ paramBytes, b < 256) :
    decodeNibbles (encodeNibbles (paramBytes ++ nameChars)) =
      paramBytes ++ nameChars := by
  refine decodeNibbles_encodeNibbles _ fun b hb => ?_
  rcases List.mem_append.mp hb with h | h
  · exact hpb b h
  · exact hnb b h

/-- C1 counterexample: for the 16-character name "A" followed by 15
padding spaces, parsing the synthetic edit-buffer dump does not recover
the exact name: the parser's `trim` strips the padding, so the result
is "A" (code 65), not the original 16-character string. -/
theorem parsePatchDump_name_not_exact :
    (parsePatchDump
        (buildPatchDump true 0 (List.replicate 55 0)
          (65 :: List.replicate 15 32))).map PatchRecord.name =
      some [65] ∧
    ([65] : List Nat) ≠ 65 :: List.replicate 15 32 := by
  constructor
  · rfl
  · decide

/-- C1 (amended): building a synthetic patch dump per the documented
layout from any 16-character name (of byte-valued character codes) and
any 55-byte parameter array and parsing it recovers the data, with the
name recovered up to JavaScript `trim` (exact when the name has no
leading or trailing whitespace): the edit-buffer frame yields
`isEditBuffer = true`, `presetNumber = none`, the trimmed name, and
the original byte at every entry of the offset table; the
stored-preset frame with program number 42 yields `presetNumber = 42`
and `isEditBuffer = false`. -/
theorem parsePatchDump_buildPatchDump_roundTrip
    (nameChars paramBytes : List Nat)
    (hname : nameChars.length = 16) (hnb : ∀ c ∈ nameChars, c < 256)
    (hplen : paramBytes.length = 55) (hpb : ∀ b ∈ paramBytes, b < 256) :
    parsePatchDump (buildPatchDump true 0 paramBytes nameChars) =
      some ⟨jsTrim nameChars,
            PATCH_PARAM_MAP.map (fun p => (p.2, paramBytes[p.1]?)),
            none, true⟩ ∧
    parsePatchDump (buildPatchDump false 42 paramBytes nameChars) =
      some ⟨jsTrim nameChars,
            PATCH_PARAM_MAP.map (fun p => (p.2, paramBytes[p.1]?)),
            some 42, false⟩ := by
  have hnbeq := name_pad_eq nameChars hname
  have henclen : (encodeNibbles (paramBytes ++ nameChars)).length = 142 := by
    rw [encodeNibbles_length]
    simp [hplen, hname]
  have htake : (encodeNibbles (paramBytes ++ nameChars) ++ [0xF7]).take 142 =
      encodeNibbles (paramBytes ++ nameChars) := by
    rw [List.take_append_of_le_length (by omega),
      List.take_of_length_le (by omega)]
  have hdec := parse_build_decoded paramBytes nameChars hnb hpb
  have hdrop55 : (paramBytes ++ nameChars).drop 55 = nameChars :=
    List.drop_left' hplen
  have hname16 : nameChars.take 16 = nameChars :=
    List.take_of_length_le (by omega)
  have hparams : PATCH_PARAM_MAP.map
        (fun p => (p.2, (paramBytes ++ nameChars)[p.1]?)) =
      PATCH_PARAM_MAP.map (fun p => (p.2, paramBytes[p.1]?)) := by
    refine List.map_congr_left fun p hp => ?_
    have hlt : p.1 < 55 := patch_param_map_offsets_lt p hp
    rw [List.getElem?_append_left (by omega)]
  constructor
  · have hbuild : buildPatchDump true 0 paramBytes nameChars =
        0xF0 :: 0x00 :: 0x01 :: 0x0C :: 0x01 :: 0x01 :: 0x01 :: 0x00 ::
          (encodeNibbles (paramBytes ++ nameChars) ++ [0xF7]) := by
      simp [buildPatchDump, hnbeq]
    rw [hbuild]
    simp only [parsePatchDump]
    simp [htake, henclen, hdec, hdrop55, hname16, hparams]
  · have hbuild : buildPatchDump false 42 paramBytes nameChars =
        0xF0 :: 0x00 :: 0x01 :: 0x0C :: 0x01 :: 0x01 :: 0x00 :: 42 :: 0x00 ::
          (encodeNibbles (paramBytes ++ nameChars) ++ [0xF7]) := by
      simp [buildPatchDump, hnbeq]
    rw [hbuild]
    simp only [parsePatchDump]
    simp [htake, henclen, hdec, hdrop55, hname16, hparams]

set_option maxRecDepth 10000 in
/-- C1 witness: a concrete whitespace-free 16-character name (16 times
code 65, "AAAAAAAAAAAAAAAA") and the parameter array 0..54 round-trip
through both frame layouts. -/
theorem parsePatchDump_buildPatchDump_roundTrip_witness :
    (List.replicate 16 65 : List Nat).length = 16 ∧
    (∀ c ∈ (List.replicate 16 65 : List Nat), c < 256) ∧
    (List.range 55).length = 55 ∧
    (∀ b ∈ List.range 55, b < 256) ∧
    (parsePatchDump (buildPatchDump true 0 (List.range 55) (List.replicate 16 65)) =
      some ⟨jsTrim (List.replicate 16 65),
            PATCH_PARAM_MAP.map (fun p => (p.2, (List.range 55)[p.1]?)),
            none, true⟩ ∧
    parsePatchDump (buildPatchDump false 42 (List.range 55) (List.replicate 16 65)) =
      some ⟨jsTrim (List.replicate 16 65),
            PATCH_PARAM_MAP.map (fun p => (p.2, (List.range 55)[p.1]?)),
            some 42, false⟩) :=
  ⟨by decide, by decide, by decide, by decide,
   parsePatchDump_buildPatchDump_roundTrip (List.replicate 16 65) (List.range 55)
     (by decide) (by decide) (by decide) (by decide)⟩

lemma head_dropWhile_all (p : Nat → Bool) (l : List Nat) :
    ((l.dropWhile p).head?.all fun c => !p c) = true := by
  have h := List.head?_dropWhile_not p l
  cases hh : (l.dropWhile p).head? with
  | none => rfl
  | some x =>
    rw [hh] at h
    simp only at h
    simp [h]

lemma jsTrim_infix (s : List Nat) :
    ∃ pre post, s = pre ++ jsTrim s ++ post ∧
      (∀ c ∈ pre, isJsWhitespace c = true) ∧
      (∀ c ∈ post, isJsWhitespace c = true) ∧
      ((jsTrim s).head?.all fun c => !isJsWhitespace c) = true ∧
      ((jsTrim s).getLast?.all fun c => !isJsWhitespace c) = true := by
  have hpre : s = s.takeWhile isJsWhitespace ++ s.dropWhile isJsWhitespace :=
    (List.takeWhile_append_dropWhile isJsWhitespace s).symm
  have h2 : (s.dropWhile isJsWhitespace).reverse =
      (s.dropWhile isJsWhitespace).reverse.takeWhile isJsWhitespace ++
        (s.dropWhile isJsWhitespace).reverse.dropWhile isJsWhitespace :=
    (List.takeWhile_append_dropWhile isJsWhitespace _).symm
  have h3 : s.dropWhile isJsWhitespace =
      jsTrim s ++
        ((s.dropWhile isJsWhitespace).reverse.takeWhile isJsWhitespace).reverse := by
    have h := congrArg List.reverse h2
    rw [List.reverse_reverse, List.reverse_append] at h
    exact h
  refine ⟨s.takeWhile isJsWhitespace,
    ((s.dropWhile isJsWhitespace).reverse.takeWhile isJsWhitespace).reverse,
    ?_, ?_, ?_, ?_, ?_⟩
  · conv_lhs => rw [hpre, h3]
    rw [List.append_assoc]
  · exact fun c hc => List.mem_takeWhile_imp hc
  · intro c hc
    rw [List.mem_reverse] at hc
    exact List.mem_takeWhile_imp hc
  · cases hBr : jsTrim s with
    | nil => rfl
    | cons x xs =>
      have hhead : (s.dropWhile isJsWhitespace).head? = some x := by
        rw [h3, hBr]
        rfl
      have hh := head_dropWhile_all isJsWhitespace s
      rw [hhead] at hh
      simp only [Option.all_some] at hh
      simp [hBr, hh]
  · have : (jsTrim s).getLast? =
        ((s.dropWhile isJsWhitespace).reverse.dropWhile isJsWhitespace).head? := by
      rw [jsTrim, List.getLast?_reverse]
    rw [this]
    exact head_dropWhile_all isJsWhitespace _

/-- C3 counterexample: the nibble sequence `[0x02, 0x00, 0x04, 0x01]`
decodes to the bytes `[0x20, 0x41]` — the string " A" with a leading
space — but `decodePatchName` returns "A" (code 65 alone): the leading
space is stripped, not preserved, because the source calls JavaScript
`trim()`, which removes whitespace at both ends. -/
theorem decodePatchName_strips_leading_space :
    decodeNibbles [0x02, 0x00, 0x04, 0x01] = [0x20, 0x41] ∧
    decodePatchName [0x02, 0x00, 0x04, 0x01] = [0x41] ∧
    decodePatchName [0x02, 0x00, 0x04, 0x01] ≠ [0x20, 0x41] :=
  ⟨rfl, rfl, by decide⟩

/-- C3 (amended): `decodePatchName` decodes the nibbles to bytes, reads
them as character codes, and removes whitespace from both ends (not
only trailing): the result is a contiguous infix of the decoded bytes —
internal spaces are preserved — obtained by stripping a whitespace-only
prefix and a whitespace-only suffix, and it neither starts nor ends
with whitespace. -/
theorem decodePatchName_trims_both_ends (nibbles : List Nat) :
    ∃ pre post,
      decodeNibbles nibbles = pre ++ decodePatchName nibbles ++ post ∧
      (∀ c ∈ pre, isJsWhitespace c = true) ∧
      (∀ c ∈ post, isJsWhitespace c = true) ∧
      ((decodePatchName nibbles).head?.all fun c => !isJsWhitespace c) = true ∧
      ((decodePatchName nibbles).getLast?.all fun c => !isJsWhitespace c) = true :=
  jsTrim_infix (decodeNibbles nibbles)

lemma nibble_pair_lt : ∀ a < 16, ∀ b < 16, ((a <<< 4) ||| b) < 256 := by decide

lemma decodeNibbles_bound : ∀ l : List Nat, (∀ x ∈ l, x < 16) →
    ∀ y ∈ decodeNibbles l, y < 256
  | [], _, y, hy => by simp [decodeNibbles] at hy
  | [a], _, y, hy => by simp [decodeNibbles] at hy
  | a :: b :: rest, h, y, hy => by
    rw [decodeNibbles] at hy
    rcases List.mem_cons.mp hy with rfl | hy'
    · exact nibble_pair_lt a (h a (by simp)) b (h b (by simp))
    · exact decodeNibbles_bound rest (fun x hx => h x (by simp [hx])) y hy'

lemma patch_param_names_nodup :
    (PATCH_PARAM_MAP.map fun p => p.2).Nodup := by
  decide

/-- An edit-buffer frame whose entire nibble payload is 0x0F: every
decoded byte is 0xFF = 255. -/
def c8frame255 : List Nat :=
  [0xF0, 0x00, 0x01, 0x0C, 0x01, 0x01, 0x01, 0x00] ++
    List.replicate 142 0x0F ++ [0xF7]

/-- C8 counterexample: `parsePatchDump` succeeds on a frame whose
nibbles are all 0x0F and reports 255 for `dist_enable` — a successful
parse can carry parameter values above 127, so the claimed 0-127 bound
does not hold (the parser performs no range validation). -/
theorem parsePatchDump_value_exceeds_127 :
    (parsePatchDump c8frame255).map (fun r => r.params.lookup "dist_enable") =
      some (some (some 255)) ∧
    ¬(255 ≤ 127) :=
  ⟨rfl, by decide⟩

/-- C8 (amended): whenever `parsePatchDump` succeeds, its parameter
list has exactly one entry per entry of `PATCH_PARAM_MAP` (the keys are
the offset table's names, each occurring once); and whenever every
element of the 142-element nibble payload is a valid 4-bit nibble
(below 16), every parameter value is a defined byte below 256 — the
parser does not re-validate the 0-127 range. -/
theorem parsePatchDump_params_entries (data : List Nat) (r : PatchRecord)
    (h : parsePatchDump data = some r) :
    (r.params.map fun kv => kv.1) = (PATCH_PARAM_MAP.map fun p => p.2) ∧
    (r.params.map fun kv => kv.1).Nodup ∧
    ((∀ x ∈ (data.drop (if data[6]? == some 0x01 then 8 else 9)).take 142, x < 16) →
      ∀ kv ∈ r.params, ∃ n, kv.2 = some n ∧ n < 256) := by
  cases hb : (data[6]? == some 0x01) with
  | false =>
    simp only [Bool.false_eq_true, if_false]
    simp only [parsePatchDump, hb, Bool.false_eq_true, if_false] at h
    split at h
    · exact Option.noConfusion h
    · rename_i hlen
      injection h with h'
      subst h'
      refine ⟨by simp, ?_, ?_⟩
      · simpa using patch_param_names_nodup
      · intro hx kv hkv
        simp only [List.mem_map] at hkv
        obtain ⟨p, hp, rfl⟩ := hkv
        have hofs : p.1 < 55 := patch_param_map_offsets_lt p hp
        have hplen : ((data.drop 9).take 142).length = 142 := by
          simp only [List.length_take, List.length_drop] at hlen ⊢
          omega
        have hdlen : (decodeNibbles ((data.drop 9).take 142)).length = 71 := by
          rw [decodeNibbles_length, hplen]
        have hlt : p.1 < (decodeNibbles ((data.drop 9).take 142)).length := by
          omega
        refine ⟨(decodeNibbles ((data.drop 9).take 142))[p.1], ?_, ?_⟩
        · simp [List.getElem?_eq_getElem hlt]
        · exact decodeNibbles_bound _ hx _ (List.getElem_mem hlt)
  | true =>
    simp only [eq_self_iff_true, if_true]
    simp only [parsePatchDump, hb, if_true] at h
    split at h
    · exact Option.noConfusion h
    · rename_i hlen
      injection h with h'
      subst h'
      refine ⟨by simp, ?_, ?_⟩
      · simpa using patch_param_names_nodup
      · intro hx kv hkv
        simp only [List.mem_map] at hkv
        obtain ⟨p, hp, rfl⟩ := hkv
        have hofs : p.1 < 55 := patch_param_map_offsets_lt p hp
        have hplen : ((data.drop 8).take 142).length = 142 := by
          simp only [List.length_take, List.length_drop] at hlen ⊢
          omega
        have hdlen : (decodeNibbles ((data.drop 8).take 142)).length = 71 := by
          rw [decodeNibbles_length, hplen]
        have hlt : p.1 < (decodeNibbles ((data.drop 8).take 142)).length := by
          omega
        refine ⟨(decodeNibbles ((data.drop 8).take 142))[p.1], ?_, ?_⟩
        · simp [List.getElem?_eq_getElem hlt]
        · exact decodeNibbles_bound _ hx _ (List.getElem_mem hlt)

/-- A well-formed all-zero edit-buffer frame. -/
def c8frame0 : List Nat :=
  [0xF0, 0x00, 0x01, 0x0C, 0x01, 0x01, 0x01, 0x00] ++
    List.replicate 142 0 ++ [0xF7]

/-- The record `parsePatchDump` produces for `c8frame0`. -/
def c8record0 : PatchRecord :=
  ⟨List.replicate 16 0, PATCH_PARAM_MAP.map (fun p => (p.2, some 0)), none, true⟩

/-- C8 witness: on the concrete all-zero edit-buffer frame the parse
succeeds, the keys are exactly the offset table's names without
duplicates, and every value is a byte below 256. -/
theorem parsePatchDump_params_entries_witness :
    parsePatchDump c8frame0 = some c8record0 ∧
    ((c8record0.params.map fun kv => kv.1) =
      (PATCH_PARAM_MAP.map fun p => p.2) ∧
    (c8record0.params.map fun kv => kv.1).Nodup ∧
    ((∀ x ∈ (c8frame0.drop
        (if c8frame0[6]? == some 0x01 then 8 else 9)).take 142, x < 16) →
      ∀ kv ∈ c8record0.params, ∃ n, kv.2 = some n ∧ n < 256)) :=
  ⟨by decide, parsePatchDump_params_entries c8frame0 c8record0 (by decide)⟩

end PocketPod
